import Mathlib

/-!
Shallow embedding of `src/media_converter.py` (a batch media-conversion
utility) and verification of the specified properties.

Modelling conventions:
* Paths are plain strings; the pathlib accessors `name`, `suffix`, `stem`
  and `parent` are reimplemented below with cpython's semantics.
* The filesystem is an association list from path to file bytes; existence
  checks and writes act on it.  Engine inputs (the file list of a folder)
  are given explicitly, as the prompt/CLI layer is out of scope.
* The external codec collaborator (moviepy's VideoFileClip/AudioFileClip,
  PIL's Image) is an oracle `Env` saying, per source path, whether opening
  succeeds, whether an audio track is present, whether writing succeeds,
  the error text raised on failure, and the produced bytes.
* Interactive prompts (`choose_conversion_for_video`, `choose_extension`)
  are pre-resolved `Intents`; a ghost counter `intentResolutions` is
  incremented exactly where the source prompts for a conversion intent.
* Python exceptions are the `Res.err` constructor, carrying the error text
  and the (already mutated) global state, mirroring in-place mutation of
  the module-level `summary` and file lists.
* Ghost fields (`transcodeLog`, `videoCodecLog`, `audioCodecLog`,
  `intentResolutions`) record observations the claims talk about; they do
  not influence control flow.
-/

/-- Python `str.lower`, character-by-character (ASCII-faithful). -/
def strLower (s : String) : String := ⟨s.data.map Char.toLower⟩

/-- Characters of a path after the last '/' (pathlib `Path.name`). -/
def pyNameChars (p : List Char) : List Char :=
  (p.reverse.takeWhile (fun c => c ≠ '/')).reverse

/-- Pathlib `Path.name` as a string. -/
def pyName (p : String) : String := ⟨pyNameChars p.data⟩

/-- Pathlib `Path.suffix` on the name: from the last dot onward, provided
that dot is neither the first nor the last character of the name;
otherwise empty. -/
def pySuffixChars (name : List Char) : List Char :=
  let r := name.reverse
  let pre := r.takeWhile (fun c => c ≠ '.')
  if pre.length = r.length then []
  else if pre.length = 0 then []
  else if pre.length + 1 = r.length then []
  else (r.take (pre.length + 1)).reverse

/-- Pathlib `Path.suffix` as a string. -/
def pySuffix (p : String) : String := ⟨pySuffixChars (pyNameChars p.data)⟩

/-- Pathlib `Path.stem`: the name with the suffix removed. -/
def pyStem (p : String) : String :=
  let name := pyNameChars p.data
  ⟨name.take (name.length - (pySuffixChars name).length)⟩

/-- Pathlib `Path.parent`, rendered as a string: everything before the last
'/'; "." when there is no '/', "/" for a path directly under the root. -/
def pyParent (p : String) : String :=
  let d := p.data
  let keep := d.length - (pyNameChars d).length
  if keep = 0 then "."
  else if keep = 1 then "/"
  else ⟨d.take (keep - 1)⟩

/-- Python `Path.__truediv__` (path join), rendered as a string. -/
def joinPath (p q : String) : String :=
  if p = "." then q else if p = "/" then "/" ++ q else p ++ "/" ++ q

/-- Decimal rendering of a natural number (Python `str(n)`), with explicit
fuel so that it reduces definitionally. -/
def natStrAux (fuel n : Nat) : List Char :=
  match fuel with
  | 0 => []
  | f+1 =>
    if n < 10 then [Nat.digitChar n]
    else natStrAux f (n / 10) ++ [Nat.digitChar (n % 10)]

/-- Decimal rendering of a natural number as a string. -/
def natStr (n : Nat) : String := ⟨natStrAux (n+1) n⟩

/-- Value of a decimal digit character. -/
def chVal (c : Char) : Nat := c.toNat - 48

/-- Decimal value of a digit string. -/
def strVal (l : List Char) : Nat := l.foldl (fun a c => a * 10 + chVal c) 0

/-- Media kinds returned by `detect_type` (the spec's MediaKind, minus
Unsupported which the source encodes as `None`). -/
inductive FType where
  | video
  | audio
  | image
deriving DecidableEq

/-- Which transcode the conversion matrix dispatches to. -/
inductive CKind where
  | vv
  | va
  | aa
  | ii
deriving DecidableEq

/-- Oracle describing the external codec collaborator's behaviour on one
source file: whether opening it succeeds, whether it has an audio track,
whether writing the output succeeds, the error text on failure, the bytes
an (abstract) transcode produces, and the PIL image mode. -/
structure MediaInfo where
  openOk : Bool
  hasAudio : Bool
  writeOk : Bool
  errMsg : String
  outBytes : List Nat
  mode : String
deriving DecidableEq

/-- The external-collaborator oracle, per source path. -/
def Env : Type := String → MediaInfo

/-- Pre-resolved interactive prompt answers: the video-vs-audio choice for
video sources (`choose_conversion_for_video`, true = "1") and the target
extension per kind (`choose_extension`), each without the leading dot. -/
structure Intents where
  videoChoice : Bool
  videoExt : String
  videoAudioExt : String
  audioExt : String
  imageExt : String
deriving DecidableEq

/-- The run state: the module-level `summary` dict and the three filename
lists (lines 10-19), the filesystem, the printed lines, and ghost logs. -/
structure St where
  converted : Nat
  copied : Nat
  skipped : Nat
  failed : Nat
  correct_format_files : List String
  skipped_files : List String
  failed_files : List String
  fs : List (String × List Nat)
  prints : List String
  transcodeLog : List String
  videoCodecLog : List (String × String × Option String)
  audioCodecLog : List (String × String)
  intentResolutions : Nat
deriving DecidableEq

/-- Result of a code region that may raise: Python exceptions carry the
error text, and the global state keeps any mutations made before the
raise. -/
inductive Res where
  | ok : St → Res
  | err : String → St → Res
deriving DecidableEq

/-- State carried by a result, for either constructor. -/
def Res.state : Res → St
  | .ok s => s
  | .err _ s => s

/-- Whether a result is a normal return. -/
def Res.isOk : Res → Bool
  | .ok _ => true
  | .err _ _ => false

/-- Paths currently existing in the filesystem. -/
def fsPaths (fs : List (String × List Nat)) : List String := fs.map Prod.fst

/-- Line 6: the video extension set. -/
def VIDEO_EXTS : List String := [".mp4", ".mov", ".avi", ".mkv", ".webm"]

/-- Line 7: the audio extension set. -/
def AUDIO_EXTS : List String := [".mp3", ".wav", ".m4a", ".flac", ".ogg"]

/-- Line 8: the image extension set. -/
def IMAGE_EXTS : List String := [".png", ".jpg", ".jpeg", ".webp", ".bmp", ".gif", ".tiff"]

/-- Lines 51-59: classify a file by its lowercased extension. -/
def detect_type (p : String) : Option FType :=
  let ext := strLower (pySuffix p)
  if ext ∈ VIDEO_EXTS then some .video
  else if ext ∈ AUDIO_EXTS then some .audio
  else if ext ∈ IMAGE_EXTS then some .image
  else none

/-- Lines 61-68: fixed audio codec lookup with default "aac". -/
def audio_codec_for_ext (ext : String) : String :=
  if ext = ".mp3" then "libmp3lame"
  else if ext = ".wav" then "pcm_s16le"
  else if ext = ".m4a" then "aac"
  else if ext = ".flac" then "flac"
  else if ext = ".ogg" then "libvorbis"
  else "aac"

/-- The i-th disambiguated candidate built on line 352:
`dest.parent / f"{dest.stem} ({i}){dest.suffix}"`. -/
def pyCandidate (dest : String) (i : Nat) : String :=
  joinPath (pyParent dest) (pyStem dest ++ " (" ++ natStr i ++ ")" ++ pySuffix dest)

/-- The search loop of lines 350-355, with fuel standing in for the
unbounded while (the fuel used below provably suffices). -/
def gufpLoop (ex : List String) (dest : String) : Nat → Nat → String
  | 0, _ => dest
  | f+1, i => if pyCandidate dest i ∈ ex then gufpLoop ex dest f (i+1) else pyCandidate dest i

/-- Lines 346-355: return `dest` if it does not exist, else the first
disambiguated candidate that does not exist.  The ambient filesystem is
passed as the list `ex` of existing paths. -/
def get_unique_file_path (ex : List String) (dest : String) : String :=
  if dest ∈ ex then gufpLoop ex dest (ex.length + 1) 1 else dest

/-- Lines 71-79: same-extension short-circuit.  Returns whether the file
was handled plus the new state; `shutil.copy2` is modelled as a
byte-for-byte copy of the source's content. -/
def copy_same_format (src dest : String) (s : St) : Bool × St :=
  if strLower (pySuffix src) = strLower (pySuffix dest) then
    let d := if dest ∈ fsPaths s.fs then get_unique_file_path (fsPaths s.fs) dest else dest
    let bytes := (s.fs.lookup src).getD []
    (true, { s with
      fs := (d, bytes) :: s.fs,
      copied := s.copied + 1,
      correct_format_files := s.correct_format_files ++ [pyName d],
      prints := s.prints ++ ["Copied (already correct format): " ++ pyName src] })
  else (false, s)

/-- Lines 82-89: video to video via the oracle; the chosen codec pair is
recorded in the ghost `videoCodecLog`. -/
def convert_video_to_video (env : Env) (src dest : String) (s : St) : Res :=
  let s := { s with transcodeLog := s.transcodeLog ++ [src] }
  let m := env src
  if m.openOk = false then .err m.errMsg s else
  let audio_present := m.hasAudio
  let vcodec := if strLower (pySuffix dest) = ".webm" then "libvpx-vp9" else "libx264"
  let acodec : Option String :=
    if strLower (pySuffix dest) = ".webm" then
      (if audio_present then some "libopus" else none)
    else (if audio_present then some "aac" else none)
  if m.writeOk = false then .err m.errMsg s else
  .ok { s with
    fs := (dest, m.outBytes) :: s.fs,
    converted := s.converted + 1,
    videoCodecLog := s.videoCodecLog ++ [(dest, vcodec, acodec)] }

/-- Lines 92-103: audio extraction; a source without an audio track is the
degenerate Skipped case and writes nothing. -/
def convert_video_to_audio (env : Env) (src dest : String) (s : St) : Res :=
  let s := { s with transcodeLog := s.transcodeLog ++ [src] }
  let m := env src
  if m.openOk = false then .err m.errMsg s else
  if m.hasAudio = false then
    .ok { s with
      skipped := s.skipped + 1,
      skipped_files := s.skipped_files ++ [pyName src],
      prints := s.prints ++ ["Skipped (no audio): " ++ pyName src] }
  else
  let codec := audio_codec_for_ext (strLower (pySuffix dest))
  if m.writeOk = false then .err m.errMsg s else
  .ok { s with
    fs := (dest, m.outBytes) :: s.fs,
    converted := s.converted + 1,
    audioCodecLog := s.audioCodecLog ++ [(dest, codec)] }

/-- Lines 105-110: audio to audio via the oracle. -/
def convert_audio_to_audio (env : Env) (src dest : String) (s : St) : Res :=
  let s := { s with transcodeLog := s.transcodeLog ++ [src] }
  let m := env src
  if m.openOk = false then .err m.errMsg s else
  let codec := audio_codec_for_ext (strLower (pySuffix dest))
  if m.writeOk = false then .err m.errMsg s else
  .ok { s with
    fs := (dest, m.outBytes) :: s.fs,
    converted := s.converted + 1,
    audioCodecLog := s.audioCodecLog ++ [(dest, codec)] }

/-- Lines 112-118: image to image via the oracle.  The PIL mode conversion
of lines 114-115 is internal to the collaborator and has no effect
observable in this model beyond the saved file. -/
def convert_image_to_image (env : Env) (src dest : String) (s : St) : Res :=
  let s := { s with transcodeLog := s.transcodeLog ++ [src] }
  let m := env src
  if m.openOk = false then .err m.errMsg s else
  if m.writeOk = false then .err m.errMsg s else
  .ok { s with fs := (dest, m.outBytes) :: s.fs, converted := s.converted + 1 }

/-- Dispatch to the transcode selected by the conversion matrix. -/
def runConvert (k : CKind) (env : Env) (src dest : String) (s : St) : Res :=
  match k with
  | .vv => convert_video_to_video env src dest s
  | .va => convert_video_to_audio env src dest s
  | .aa => convert_audio_to_audio env src dest s
  | .ii => convert_image_to_image env src dest s

/-- The per-file loop bodies of the mixed-kind branch of `convert_folder`
(lines 197-224): allocate the destination, try the same-format copy, else
transcode with NO exception handler, so an error propagates. -/
def processFilesNoCatch (k : CKind) (outDir ext : String) (env : Env) : List String → St → Res
  | [], s => .ok s
  | f :: rest, s =>
    let dest := get_unique_file_path (fsPaths s.fs) (joinPath outDir (pyStem f ++ "." ++ ext))
    match copy_same_format f dest s with
    | (true, s1) => processFilesNoCatch k outDir ext env rest s1
    | (false, s1) =>
      match runConvert k env f dest s1 with
      | .ok s2 => processFilesNoCatch k outDir ext env rest s2
      | .err m s2 => .err m s2

/-- The per-file loop bodies of `convert_all_same_type` (lines 232-280):
same as above but each transcode sits in try/except, recording a failure
and continuing with the remaining files. -/
def processFilesCatch (k : CKind) (outDir ext : String) (env : Env) : List String → St → St
  | [], s => s
  | f :: rest, s =>
    let dest := get_unique_file_path (fsPaths s.fs) (joinPath outDir (pyStem f ++ "." ++ ext))
    match copy_same_format f dest s with
    | (true, s1) => processFilesCatch k outDir ext env rest s1
    | (false, s1) =>
      match runConvert k env f dest s1 with
      | .ok s2 => processFilesCatch k outDir ext env rest s2
      | .err m s2 =>
        processFilesCatch k outDir ext env rest
          { s2 with
            failed := s2.failed + 1,
            failed_files := s2.failed_files ++ [pyName f],
            prints := s2.prints ++ ["Failed: " ++ pyName f ++ " - " ++ m] }

/-- Lines 226-280: homogeneous-folder processing; the conversion intent is
resolved once, before the per-file loop. -/
def convert_all_same_type (t : FType) (files : List String) (outDir : String) (it : Intents) (env : Env) (s : St) : St :=
  match t with
  | .video =>
    let s := { s with intentResolutions := s.intentResolutions + 1 }
    if it.videoChoice then processFilesCatch .vv outDir it.videoExt env files s
    else processFilesCatch .va outDir it.videoAudioExt env files s
  | .audio =>
    let s := { s with intentResolutions := s.intentResolutions + 1 }
    processFilesCatch .aa outDir it.audioExt env files s
  | .image =>
    let s := { s with intentResolutions := s.intentResolutions + 1 }
    processFilesCatch .ii outDir it.imageExt env files s

/-- One kind group of the mixed-kind branch (lines 193-224): resolve the
intent once for the group, then run the unprotected per-file loop. -/
def processGroupNoCatch (t : FType) (files : List String) (outDir : String) (it : Intents) (env : Env) (s : St) : Res :=
  match t with
  | .video =>
    let s := { s with intentResolutions := s.intentResolutions + 1 }
    if it.videoChoice then processFilesNoCatch .vv outDir it.videoExt env files s
    else processFilesNoCatch .va outDir it.videoAudioExt env files s
  | .audio =>
    let s := { s with intentResolutions := s.intentResolutions + 1 }
    processFilesNoCatch .aa outDir it.audioExt env files s
  | .image =>
    let s := { s with intentResolutions := s.intentResolutions + 1 }
    processFilesNoCatch .ii outDir it.imageExt env files s

/-- Lines 168-179: classify the folder's files, recording unsupported ones
as skipped in encounter order; returns the video/audio/image groups, each
in encounter order. -/
def partition_files : List String → St → St × List String × List String × List String
  | [], s => (s, [], [], [])
  | f :: rest, s =>
    match detect_type f with
    | some FType.video =>
      let (s1, v, a, i) := partition_files rest s
      (s1, f :: v, a, i)
    | some FType.audio =>
      let (s1, v, a, i) := partition_files rest s
      (s1, v, f :: a, i)
    | some FType.image =>
      let (s1, v, a, i) := partition_files rest s
      (s1, v, a, f :: i)
    | none =>
      partition_files rest
        { s with
          skipped := s.skipped + 1,
          skipped_files := s.skipped_files ++ [pyName f],
          prints := s.prints ++ ["Skipped (unsupported type): " ++ pyName f] }

/-- Lines 167-224: folder processing.  Exactly one non-empty kind group
goes through the homogeneous path (with per-file try/except); otherwise
the groups are processed in dict order video, audio, image, with no
exception handler, so an error aborts the remaining files. -/
def convert_folder (files : List String) (outDir : String) (it : Intents) (env : Env) (s : St) : Res :=
  let (s1, videos, audios, images) := partition_files files s
  let n := (if videos.isEmpty then 0 else 1) + (if audios.isEmpty then 0 else 1)
    + (if images.isEmpty then 0 else 1)
  if n = 1 then
    if videos.isEmpty = false then .ok (convert_all_same_type .video videos outDir it env s1)
    else if audios.isEmpty = false then .ok (convert_all_same_type .audio audios outDir it env s1)
    else .ok (convert_all_same_type .image images outDir it env s1)
  else
    match (if videos.isEmpty then Res.ok s1 else processGroupNoCatch .video videos outDir it env s1) with
    | .err m s2 => .err m s2
    | .ok s2 =>
      match (if audios.isEmpty then Res.ok s2 else processGroupNoCatch .audio audios outDir it env s2) with
      | .err m s3 => .err m s3
      | .ok s3 =>
        if images.isEmpty then .ok s3 else processGroupNoCatch .image images outDir it env s3

/-- Lines 120-164: single-file processing; the whole decision and
transcode sits in one try/except recording a failure for this file. -/
def convert_single_file (src outDir : String) (it : Intents) (env : Env) (s : St) : St :=
  match detect_type src with
  | none =>
    { s with
      skipped := s.skipped + 1,
      skipped_files := s.skipped_files ++ [pyName src],
      prints := s.prints ++ ["Skipped (unsupported type): " ++ pyName src] }
  | some t =>
    let r : Res :=
      match t with
      | .video =>
        let s := { s with intentResolutions := s.intentResolutions + 1 }
        if it.videoChoice then
          let dest := get_unique_file_path (fsPaths s.fs) (joinPath outDir (pyStem src ++ "." ++ it.videoExt))
          match copy_same_format src dest s with
          | (true, s1) => .ok s1
          | (false, s1) => convert_video_to_video env src dest s1
        else
          let dest := get_unique_file_path (fsPaths s.fs) (joinPath outDir (pyStem src ++ "." ++ it.videoAudioExt))
          match copy_same_format src dest s with
          | (true, s1) => .ok s1
          | (false, s1) => convert_video_to_audio env src dest s1
      | .audio =>
        let s := { s with intentResolutions := s.intentResolutions + 1 }
        let dest := get_unique_file_path (fsPaths s.fs) (joinPath outDir (pyStem src ++ "." ++ it.audioExt))
        match copy_same_format src dest s with
        | (true, s1) => .ok s1
        | (false, s1) => convert_audio_to_audio env src dest s1
      | .image =>
        let s := { s with intentResolutions := s.intentResolutions + 1 }
        let dest := get_unique_file_path (fsPaths s.fs) (joinPath outDir (pyStem src ++ "." ++ it.imageExt))
        match copy_same_format src dest s with
        | (true, s1) => .ok s1
        | (false, s1) => convert_image_to_image env src dest s1
    match r with
    | .ok s1 => s1
    | .err m s1 =>
      { s1 with
        failed := s1.failed + 1,
        failed_files := s1.failed_files ++ [pyName src],
        prints := s1.prints ++ ["Failed to convert " ++ pyName src ++ ": " ++ m] }

/-- The target of a run as seen by lines 369-378 of main: an existing
file, an existing directory (given with its list of regular files), or
something that is neither. -/
inductive Target where
  | file : String → Target
  | dir : List String → Target
  | other : Target

/-- Lines 369-378 of main.  The prompt layer (get_target,
get_output_folder, get_unique_output_folder, mkdir) is outside the engine
and is modelled by the already-resolved target and output directory. -/
def runMain (t : Target) (outDir : String) (it : Intents) (env : Env) (s : St) : Res :=
  match t with
  | .file p => .ok (convert_single_file p outDir it env s)
  | .dir files => convert_folder files outDir it env s
  | .other =>
    .ok { s with
      failed := s.failed + 1,
      prints := s.prints ++ ["Target is neither a file nor folder."] }

/-- Number of files a run examines (spec: the RunSummary invariant counts
unsupported files too). -/
def examinedCount : Target → Nat
  | .file _ => 1
  | .dir files => files.length
  | .other => 0

/-- Sum of the four summary counters. -/
def sumCounters (s : St) : Nat := s.converted + s.copied + s.skipped + s.failed

/-- An itemization line of the report (lines 320, 326, 331). -/
def bulletLine (f : String) : String := "    • " ++ f

/-- Lines 313-333: the rendered end-of-run report, one list entry per
print call. -/
def print_summary (s : St) : List String :=
  ["\n==== SUMMARY ===="]
  ++ ["Converted: " ++ natStr s.converted]
  ++ ["Copied (already correct format): " ++ natStr s.copied]
  ++ (if 0 < s.copied then "  - Files already correct format:" :: s.correct_format_files.map bulletLine else [])
  ++ ["Skipped: " ++ natStr s.skipped]
  ++ (if 0 < s.skipped then "  - Skipped files:" :: s.skipped_files.map bulletLine else [])
  ++ ["Failed: " ++ natStr s.failed]
  ++ (if 0 < s.failed then "  - Failed files:" :: s.failed_files.map bulletLine else [])
  ++ ["================="]

/-- The empty run state (module import time, lines 10-19). -/
def st0 : St := ⟨0, 0, 0, 0, [], [], [], [], [], [], [], [], 0⟩

/-- An oracle under which every file opens, has audio, and writes fine. -/
def envOk : Env := fun _ => ⟨true, true, true, "", [7], "RGB"⟩

/-- An oracle under which "v1.mp4" fails to open with message "boom" and
everything else behaves. -/
def envFail1 : Env := fun p =>
  if p = "v1.mp4" then ⟨false, true, true, "boom", [], "RGB"⟩
  else ⟨true, true, true, "", [7], "RGB"⟩

/-- A fixed set of resolved intents: video to video targeting avi, audio
extraction to mp3, audio to mp3, image to png. -/
def it0 : Intents := ⟨true, "avi", "mp3", "mp3", "png"⟩

/-! Decimal rendering: round trip and injectivity. -/

theorem chVal_digitChar : ∀ n, n < 10 → chVal (Nat.digitChar n) = n := by decide

theorem strVal_append_singleton (l : List Char) (c : Char) :
    strVal (l ++ [c]) = strVal l * 10 + chVal c := by
  simp [strVal, List.foldl_append]

theorem strVal_natStrAux : ∀ fuel n, n < fuel → strVal (natStrAux fuel n) = n := by
  intro fuel
  induction fuel with
  | zero => intro n h; omega
  | succ f ih =>
    intro n h
    by_cases h10 : n < 10
    · simp only [natStrAux, if_pos h10]
      have := chVal_digitChar n h10
      simp [strVal, chVal] at this ⊢
      omega
    · have hd : n / 10 < n := Nat.div_lt_self (by omega) (by omega)
      simp only [natStrAux, if_neg h10]
      rw [strVal_append_singleton, ih (n / 10) (by omega), chVal_digitChar (n % 10) (by omega)]
      omega

theorem natStr_data_inj {m n : Nat} (h : (natStr m).data = (natStr n).data) : m = n := by
  have h1 := strVal_natStrAux (m + 1) m (by omega)
  have h2 := strVal_natStrAux (n + 1) n (by omega)
  have hd : natStrAux (m + 1) m = natStrAux (n + 1) n := h
  rw [← h1, ← h2, hd]

theorem natStr_tail_inj {T : List Char} {i j : Nat}
    (h : (natStr i).data ++ T = (natStr j).data ++ T) : i = j :=
  natStr_data_inj (List.append_cancel_right h)

/-! Injectivity of the disambiguated candidates and the pigeonhole bound
used to justify the fuel of gufpLoop. -/

theorem pyCandidate_inj (dest : String) {i j : Nat}
    (h : pyCandidate dest i = pyCandidate dest j) : i = j := by
  have hd := congrArg String.data h
  unfold pyCandidate joinPath at hd
  split_ifs at hd <;> simp only [String.data_append, List.append_assoc] at hd
  · exact natStr_tail_inj (List.append_cancel_left (List.append_cancel_left hd))
  · exact natStr_tail_inj (List.append_cancel_left
      (List.append_cancel_left (List.append_cancel_left hd)))
  · exact natStr_tail_inj (List.append_cancel_left
      (List.append_cancel_left (List.append_cancel_left (List.append_cancel_left hd))))

theorem exists_free_candidate (ex : List String) (dest : String) :
    ∃ k, k < ex.length + 1 ∧ pyCandidate dest (1 + k) ∉ ex := by
  by_contra hc
  push_neg at hc
  have hinj : Function.Injective (fun k => pyCandidate dest (1 + k)) := by
    intro a b hab
    have := pyCandidate_inj dest hab
    omega
  have hnd : ((List.range (ex.length + 1)).map (fun k => pyCandidate dest (1 + k))).Nodup :=
    (List.nodup_range _).map hinj
  have hsub : ((List.range (ex.length + 1)).map (fun k => pyCandidate dest (1 + k))).toFinset
      ⊆ ex.toFinset := by
    intro x hx
    simp only [List.mem_toFinset, List.mem_map, List.mem_range] at hx ⊢
    obtain ⟨k, hk, rfl⟩ := hx
    exact hc k hk
  have h1 := List.toFinset_card_of_nodup hnd
  have h2 := Finset.card_le_card hsub
  have h3 := List.toFinset_card_le (α := String) ex
  simp only [List.length_map, List.length_range] at h1
  omega

theorem gufpLoop_spec (ex : List String) (dest : String) :
    ∀ fuel i, (∃ k, k < fuel ∧ pyCandidate dest (i + k) ∉ ex) →
      ∃ k, k < fuel ∧ gufpLoop ex dest fuel i = pyCandidate dest (i + k) ∧
        pyCandidate dest (i + k) ∉ ex ∧ ∀ m, m < k → pyCandidate dest (i + m) ∈ ex := by
  intro fuel
  induction fuel with
  | zero =>
    intro i h
    obtain ⟨k, hk, _⟩ := h
    omega
  | succ f ih =>
    intro i h
    obtain ⟨k, hk, hfree⟩ := h
    by_cases hmem : pyCandidate dest i ∈ ex
    · have hk0 : k ≠ 0 := by
        rintro rfl
        simp only [Nat.add_zero] at hfree
        exact hfree hmem
      obtain ⟨k', rfl⟩ := Nat.exists_eq_succ_of_ne_zero hk0
      have hshift : pyCandidate dest ((i + 1) + k') ∉ ex := by
        rwa [show i + (k' + 1) = (i + 1) + k' from by omega] at hfree
      obtain ⟨k2, hk2, heq, hfree2, hmin⟩ := ih (i + 1) ⟨k', by omega, hshift⟩
      refine ⟨k2 + 1, by omega, ?_, ?_, ?_⟩
      · rw [show i + (k2 + 1) = (i + 1) + k2 from by omega]
        simpa [gufpLoop, hmem] using heq
      · rw [show i + (k2 + 1) = (i + 1) + k2 from by omega]
        exact hfree2
      · intro m hm
        match m with
        | 0 => simpa using hmem
        | m' + 1 =>
          rw [show i + (m' + 1) = (i + 1) + m' from by omega]
          exact hmin m' (by omega)
    · exact ⟨0, by omega, by simp [gufpLoop, hmem], by simpa using hmem, by omega⟩

/-- C5: get_unique_file_path returns the candidate unchanged when no file
exists at it; otherwise it returns the first disambiguated path
"stem (n)suffix" (n = 1, 2, ...) that does not exist; in either case the
returned path never refers to an existing file. -/
theorem C5_unique_file_path (ex : List String) (dest : String) :
    (dest ∉ ex → get_unique_file_path ex dest = dest) ∧
    (dest ∈ ex → ∃ n, 1 ≤ n ∧ get_unique_file_path ex dest = pyCandidate dest n ∧
      pyCandidate dest n ∉ ex ∧ ∀ m, 1 ≤ m → m < n → pyCandidate dest m ∈ ex) ∧
    get_unique_file_path ex dest ∉ ex := by
  obtain ⟨k0, hk0, hfree0⟩ := exists_free_candidate ex dest
  refine ⟨?_, ?_, ?_⟩
  · intro h
    simp [get_unique_file_path, h]
  · intro h
    obtain ⟨k, hk, heq, hfree, hmin⟩ :=
      gufpLoop_spec ex dest (ex.length + 1) 1 ⟨k0, hk0, hfree0⟩
    refine ⟨1 + k, by omega, ?_, hfree, ?_⟩
    · simpa [get_unique_file_path, h] using heq
    · intro m h1m hmk
      have := hmin (m - 1) (by omega)
      rwa [show 1 + (m - 1) = m from by omega] at this
  · by_cases h : dest ∈ ex
    · obtain ⟨k, hk, heq, hfree, hmin⟩ :=
        gufpLoop_spec ex dest (ex.length + 1) 1 ⟨k0, hk0, hfree0⟩
      have hrw : get_unique_file_path ex dest = pyCandidate dest (1 + k) := by
        simpa [get_unique_file_path, h] using heq
      rw [hrw]
      exact hfree
    · simpa [get_unique_file_path, h] using h

/-- C5 witness: in a directory containing "a.png" and "a (1).png", the call
for candidate "a.png" returns "a (2).png", which does not exist. -/
theorem C5_unique_file_path_witness :
    get_unique_file_path ["a.png", "a (1).png"] "a.png" = "a (2).png" ∧
    ("a.png" ∈ ["a.png", "a (1).png"] ∧
      ∃ n, 1 ≤ n ∧
        get_unique_file_path ["a.png", "a (1).png"] "a.png" = pyCandidate "a.png" n ∧
        pyCandidate "a.png" n ∉ ["a.png", "a (1).png"] ∧
        ∀ m, 1 ≤ m → m < n → pyCandidate "a.png" m ∈ ["a.png", "a (1).png"]) ∧
    get_unique_file_path ["a.png", "a (1).png"] "a.png" ∉ ["a.png", "a (1).png"] := by
  refine ⟨by decide, ⟨by decide, ?_⟩, ?_⟩
  · exact (C5_unique_file_path ["a.png", "a (1).png"] "a.png").2.1 (by decide)
  · exact (C5_unique_file_path ["a.png", "a (1).png"] "a.png").2.2

/-! Classifier. -/

theorem mem_audio_not_video {x : String} (h : x ∈ AUDIO_EXTS) : x ∉ VIDEO_EXTS := by
  intro hv
  simp only [AUDIO_EXTS, List.mem_cons, List.not_mem_nil, or_false] at h
  rcases h with rfl | rfl | rfl | rfl | rfl <;> exact absurd hv (by decide)

theorem mem_image_not_video {x : String} (h : x ∈ IMAGE_EXTS) : x ∉ VIDEO_EXTS := by
  intro hv
  simp only [IMAGE_EXTS, List.mem_cons, List.not_mem_nil, or_false] at h
  rcases h with rfl | rfl | rfl | rfl | rfl | rfl | rfl <;> exact absurd hv (by decide)

theorem mem_image_not_audio {x : String} (h : x ∈ IMAGE_EXTS) : x ∉ AUDIO_EXTS := by
  intro hv
  simp only [IMAGE_EXTS, List.mem_cons, List.not_mem_nil, or_false] at h
  rcases h with rfl | rfl | rfl | rfl | rfl | rfl | rfl <;> exact absurd hv (by decide)

/-- C6: detect_type is a total function of the lowercased extension; every
path whose extension lies in the video, audio or image set is classified
accordingly, every other path is unsupported (None), the three extension
sets are pairwise disjoint, and the classification depends on nothing but
the case-folded extension. -/
theorem C6_classify :
    (∀ p, strLower (pySuffix p) ∈ VIDEO_EXTS → detect_type p = some FType.video) ∧
    (∀ p, strLower (pySuffix p) ∈ AUDIO_EXTS → detect_type p = some FType.audio) ∧
    (∀ p, strLower (pySuffix p) ∈ IMAGE_EXTS → detect_type p = some FType.image) ∧
    (∀ p, strLower (pySuffix p) ∉ VIDEO_EXTS → strLower (pySuffix p) ∉ AUDIO_EXTS →
      strLower (pySuffix p) ∉ IMAGE_EXTS → detect_type p = none) ∧
    (∀ p q, strLower (pySuffix p) = strLower (pySuffix q) → detect_type p = detect_type q) ∧
    (∀ e ∈ VIDEO_EXTS, e ∉ AUDIO_EXTS ∧ e ∉ IMAGE_EXTS) ∧
    (∀ e ∈ AUDIO_EXTS, e ∉ IMAGE_EXTS) := by
  refine ⟨?_, ?_, ?_, ?_, ?_, by decide, by decide⟩
  · intro p h
    simp [detect_type, h]
  · intro p h
    simp [detect_type, h, mem_audio_not_video h]
  · intro p h
    simp [detect_type, h, mem_image_not_video h, mem_image_not_audio h]
  · intro p h1 h2 h3
    simp [detect_type, h1, h2, h3]
  · intro p q h
    simp only [detect_type]
    rw [h]

/-- C6 witness: concrete classifications, including case-insensitivity and
an extensionless path. -/
theorem C6_classify_witness :
    detect_type "clip.MOV" = some FType.video ∧
    detect_type "song.flac" = some FType.audio ∧
    detect_type "pic.WebP" = some FType.image ∧
    detect_type "notes.txt" = none ∧
    detect_type "README" = none := by
  refine ⟨?_, ?_, ?_, ?_, ?_⟩
  · exact (C6_classify.1) "clip.MOV" (by decide)
  · exact (C6_classify.2.1) "song.flac" (by decide)
  · exact (C6_classify.2.2.1) "pic.WebP" (by decide)
  · exact (C6_classify.2.2.2.1) "notes.txt" (by decide) (by decide) (by decide)
  · exact (C6_classify.2.2.2.1) "README" (by decide) (by decide) (by decide)

/-! Codec policy. -/

/-- C8: the codec lookup is the fixed table mp3, PCM, AAC, FLAC, Vorbis;
for video targets a webm container selects the VP9/Opus pairing and every
other container selects H.264/AAC; and when the source has no audio track
the audio stream is omitted (None) while the conversion still succeeds. -/
theorem C8_codec_policy :
    audio_codec_for_ext ".mp3" = "libmp3lame" ∧
    audio_codec_for_ext ".wav" = "pcm_s16le" ∧
    audio_codec_for_ext ".m4a" = "aac" ∧
    audio_codec_for_ext ".flac" = "flac" ∧
    audio_codec_for_ext ".ogg" = "libvorbis" ∧
    (∀ (env : Env) (src dest : String) (s : St),
      (env src).openOk = true → (env src).writeOk = true →
      (convert_video_to_video env src dest s).isOk = true ∧
      (convert_video_to_video env src dest s).state.converted = s.converted + 1 ∧
      (convert_video_to_video env src dest s).state.failed = s.failed ∧
      (convert_video_to_video env src dest s).state.videoCodecLog =
        s.videoCodecLog ++
          [(dest,
            (if strLower (pySuffix dest) = ".webm" then "libvpx-vp9" else "libx264"),
            (if (env src).hasAudio then
              some (if strLower (pySuffix dest) = ".webm" then "libopus" else "aac")
            else none))]) := by
  refine ⟨by decide, by decide, by decide, by decide, by decide, ?_⟩
  intro env src dest s h1 h2
  by_cases hw : strLower (pySuffix dest) = ".webm" <;>
    by_cases ha : (env src).hasAudio <;>
      simp [convert_video_to_video, h1, h2, hw, ha, Res.isOk, Res.state]

/-- C8 witness: a concrete successful conversion to webm of a source with
no audio track logs the VP9 codec with the audio stream omitted. -/
theorem C8_codec_policy_witness :
    (convert_video_to_video (fun _ => ⟨true, false, true, "", [3], "RGB"⟩)
      "v.mp4" "out/v.webm" st0).isOk = true ∧
    (convert_video_to_video (fun _ => ⟨true, false, true, "", [3], "RGB"⟩)
      "v.mp4" "out/v.webm" st0).state.videoCodecLog = [("out/v.webm", "libvpx-vp9", none)] := by
  have h := C8_codec_policy.2.2.2.2.2
    (fun _ => ⟨true, false, true, "", [3], "RGB"⟩) "v.mp4" "out/v.webm" st0 rfl rfl
  refine ⟨h.1, ?_⟩
  rw [h.2.2.2]
  decide

/-! The no-audio degenerate case. -/

/-- C4: a video source without an audio track, requested as audio
extraction, yields a Skipped outcome with the "no audio" reason (skipped
counter incremented, source name added to the skipped list), never a
Failed outcome, and no output file is created: the filesystem is
unchanged.  The second conjunct lifts this to convert_single_file when
extraction was chosen and the same-format short-circuit does not apply. -/
theorem C4_no_audio_skip :
    (∀ (env : Env) (src dest : String) (s : St),
      (env src).openOk = true → (env src).hasAudio = false →
      (convert_video_to_audio env src dest s).isOk = true ∧
      (convert_video_to_audio env src dest s).state.skipped = s.skipped + 1 ∧
      (convert_video_to_audio env src dest s).state.skipped_files =
        s.skipped_files ++ [pyName src] ∧
      (convert_video_to_audio env src dest s).state.failed = s.failed ∧
      (convert_video_to_audio env src dest s).state.failed_files = s.failed_files ∧
      (convert_video_to_audio env src dest s).state.converted = s.converted ∧
      (convert_video_to_audio env src dest s).state.fs = s.fs ∧
      ("Skipped (no audio): " ++ pyName src) ∈
        (convert_video_to_audio env src dest s).state.prints) ∧
    (∀ (env : Env) (src outDir : String) (it : Intents) (s : St),
      detect_type src = some FType.video → it.videoChoice = false →
      (env src).openOk = true → (env src).hasAudio = false →
      strLower (pySuffix src) ≠ strLower (pySuffix (get_unique_file_path (fsPaths s.fs)
        (joinPath outDir (pyStem src ++ "." ++ it.videoAudioExt)))) →
      (convert_single_file src outDir it env s).skipped = s.skipped + 1 ∧
      (convert_single_file src outDir it env s).failed = s.failed ∧
      (convert_single_file src outDir it env s).skipped_files =
        s.skipped_files ++ [pyName src] ∧
      (convert_single_file src outDir it env s).fs = s.fs) := by
  constructor
  · intro env src dest s h1 h2
    simp [convert_video_to_audio, h1, h2, Res.isOk, Res.state]
  · intro env src outDir it s hdet hch h1 h2 hne
    simp only [convert_single_file, hdet, hch]
    simp only [copy_same_format, if_neg hne]
    simp [convert_video_to_audio, h1, h2, Res.isOk, Res.state]

/-- C4 witness: extracting audio from a concrete audio-less video records
one skip with the "no audio" reason and writes nothing. -/
theorem C4_no_audio_skip_witness :
    (convert_video_to_audio (fun _ => ⟨true, false, true, "", [3], "RGB"⟩)
      "v.mp4" "out/v.mp3" st0).isOk = true ∧
    (convert_video_to_audio (fun _ => ⟨true, false, true, "", [3], "RGB"⟩)
      "v.mp4" "out/v.mp3" st0).state.skipped = st0.skipped + 1 ∧
    (convert_video_to_audio (fun _ => ⟨true, false, true, "", [3], "RGB"⟩)
      "v.mp4" "out/v.mp3" st0).state.failed = st0.failed ∧
    (convert_video_to_audio (fun _ => ⟨true, false, true, "", [3], "RGB"⟩)
      "v.mp4" "out/v.mp3" st0).state.fs = st0.fs := by
  have h := C4_no_audio_skip.1 (fun _ => ⟨true, false, true, "", [3], "RGB"⟩)
    "v.mp4" "out/v.mp3" st0 rfl rfl
  exact ⟨h.1, h.2.1, h.2.2.2.1, h.2.2.2.2.2.2.1⟩

/-! The same-format copy short-circuit. -/

/-- Target extension resolved for one file of kind t under given intents
(the value choose_extension returns at each call site). -/
def targetExtFor (t : FType) (it : Intents) : String :=
  match t with
  | .video => if it.videoChoice then it.videoExt else it.videoAudioExt
  | .audio => it.audioExt
  | .image => it.imageExt

/-- C3: whenever source and allocated destination have the same extension
case-insensitively, copy_same_format handles the file: it records a Copied
outcome, stores the source's bytes at the destination, and no transcode
function runs; with a differing extension it does nothing.  The final two
conjuncts show the check is performed first, before any transcode, in
single-file mode (all four matrix rows, via t) and in both batch loops
(all four rows, via k): the step reduces to the copy and moves on. -/
theorem C3_copy_short_circuit :
    (∀ (src dest : String) (s : St),
      strLower (pySuffix src) = strLower (pySuffix dest) →
      (copy_same_format src dest s).1 = true ∧
      (copy_same_format src dest s).2.copied = s.copied + 1 ∧
      (copy_same_format src dest s).2.transcodeLog = s.transcodeLog ∧
      (copy_same_format src dest s).2.converted = s.converted ∧
      (copy_same_format src dest s).2.skipped = s.skipped ∧
      (copy_same_format src dest s).2.failed = s.failed ∧
      (∀ b, s.fs.lookup src = some b →
        (copy_same_format src dest s).2.fs.lookup
          (if dest ∈ fsPaths s.fs then get_unique_file_path (fsPaths s.fs) dest else dest)
          = some b)) ∧
    (∀ (src dest : String) (s : St),
      strLower (pySuffix src) ≠ strLower (pySuffix dest) →
      copy_same_format src dest s = (false, s)) ∧
    (∀ (src outDir : String) (it : Intents) (env : Env) (s : St) (t : FType),
      detect_type src = some t →
      strLower (pySuffix src) = strLower (pySuffix (get_unique_file_path (fsPaths s.fs)
        (joinPath outDir (pyStem src ++ "." ++ targetExtFor t it)))) →
      (convert_single_file src outDir it env s).copied = s.copied + 1 ∧
      (convert_single_file src outDir it env s).transcodeLog = s.transcodeLog ∧
      (convert_single_file src outDir it env s).converted = s.converted ∧
      (convert_single_file src outDir it env s).failed = s.failed ∧
      (convert_single_file src outDir it env s).skipped = s.skipped) ∧
    (∀ (k : CKind) (outDir ext : String) (env : Env) (f : String) (rest : List String) (s : St),
      strLower (pySuffix f) = strLower (pySuffix (get_unique_file_path (fsPaths s.fs)
        (joinPath outDir (pyStem f ++ "." ++ ext)))) →
      processFilesNoCatch k outDir ext env (f :: rest) s =
        processFilesNoCatch k outDir ext env rest
          (copy_same_format f (get_unique_file_path (fsPaths s.fs)
            (joinPath outDir (pyStem f ++ "." ++ ext))) s).2 ∧
      processFilesCatch k outDir ext env (f :: rest) s =
        processFilesCatch k outDir ext env rest
          (copy_same_format f (get_unique_file_path (fsPaths s.fs)
            (joinPath outDir (pyStem f ++ "." ++ ext))) s).2) := by
  refine ⟨?_, ?_, ?_, ?_⟩
  · intro src dest s h
    refine ⟨?_, ?_, ?_, ?_, ?_, ?_, ?_⟩ <;>
      simp [copy_same_format, if_pos h, List.lookup]
    intro b hb
    simp [hb]
  · intro src dest s h
    simp [copy_same_format, if_neg h]
  · intro src outDir it env s t hdet hmatch
    cases t with
    | video =>
      by_cases hch : it.videoChoice <;>
        simp [targetExtFor, hch] at hmatch <;>
        simp [convert_single_file, hdet, hch, copy_same_format, if_pos hmatch]
    | audio =>
      simp only [targetExtFor] at hmatch
      simp [convert_single_file, hdet, copy_same_format, if_pos hmatch]
    | image =>
      simp only [targetExtFor] at hmatch
      simp [convert_single_file, hdet, copy_same_format, if_pos hmatch]
  · intro k outDir ext env f rest s hmatch
    have hc : copy_same_format f (get_unique_file_path (fsPaths s.fs)
        (joinPath outDir (pyStem f ++ "." ++ ext))) s =
        (true, (copy_same_format f (get_unique_file_path (fsPaths s.fs)
          (joinPath outDir (pyStem f ++ "." ++ ext))) s).2) := by
      simp [copy_same_format, if_pos hmatch]
    constructor
    · simp only [processFilesNoCatch]
      rw [hc]
    · simp only [processFilesCatch]
      rw [hc]

/-- C3 witness: a concrete mp4 source with an mp4 target in single-file
mode is copied, nothing is transcoded, and the destination holds the
source's bytes. -/
theorem C3_copy_short_circuit_witness :
    ((convert_single_file "v.mp4" "out" ⟨true, "mp4", "mp3", "mp3", "png"⟩ envOk
        { st0 with fs := [("v.mp4", [9, 9])] }).copied =
      { st0 with fs := [("v.mp4", [9, 9])] }.copied + 1 ∧
     (convert_single_file "v.mp4" "out" ⟨true, "mp4", "mp3", "mp3", "png"⟩ envOk
        { st0 with fs := [("v.mp4", [9, 9])] }).transcodeLog =
      { st0 with fs := [("v.mp4", [9, 9])] }.transcodeLog) ∧
    (copy_same_format "v.mp4" "out/v.mp4" { st0 with fs := [("v.mp4", [9, 9])] }).2.fs.lookup
      "out/v.mp4" = some [9, 9] := by
  constructor
  · have h := C3_copy_short_circuit.2.2.1 "v.mp4" "out" ⟨true, "mp4", "mp3", "mp3", "png"⟩
      envOk { st0 with fs := [("v.mp4", [9, 9])] } FType.video (by decide) (by decide)
    exact ⟨h.1, h.2.1⟩
  · have h := (C3_copy_short_circuit.1 "v.mp4" "out/v.mp4"
      { st0 with fs := [("v.mp4", [9, 9])] } (by decide)).2.2.2.2.2.2 [9, 9] (by decide)
    simpa using h

/-! Which filename each outcome records. -/

/-- C10: a Copied outcome records the destination file's name (after any
disambiguation), while Skipped outcomes (unsupported type, no audio) and
Failed outcomes (single-file catch, batch catch) record the source file's
name. -/
theorem C10_recorded_names :
    (∀ (src dest : String) (s : St),
      strLower (pySuffix src) = strLower (pySuffix dest) →
      (copy_same_format src dest s).2.correct_format_files =
        s.correct_format_files ++
          [pyName (if dest ∈ fsPaths s.fs then get_unique_file_path (fsPaths s.fs) dest
            else dest)]) ∧
    (∀ (env : Env) (src dest : String) (s : St),
      (env src).openOk = true → (env src).hasAudio = false →
      (convert_video_to_audio env src dest s).state.skipped_files =
        s.skipped_files ++ [pyName src]) ∧
    (∀ (src outDir : String) (it : Intents) (env : Env) (s : St),
      detect_type src = none →
      (convert_single_file src outDir it env s).skipped_files =
        s.skipped_files ++ [pyName src]) ∧
    (∀ (k : CKind) (outDir ext : String) (env : Env) (f : String) (rest : List String)
        (s : St) (m : String) (s2 : St),
      strLower (pySuffix f) ≠ strLower (pySuffix (get_unique_file_path (fsPaths s.fs)
        (joinPath outDir (pyStem f ++ "." ++ ext)))) →
      runConvert k env f (get_unique_file_path (fsPaths s.fs)
        (joinPath outDir (pyStem f ++ "." ++ ext))) s = Res.err m s2 →
      processFilesCatch k outDir ext env (f :: rest) s =
        processFilesCatch k outDir ext env rest
          { s2 with
            failed := s2.failed + 1,
            failed_files := s2.failed_files ++ [pyName f],
            prints := s2.prints ++ ["Failed: " ++ pyName f ++ " - " ++ m] }) ∧
    (∀ (src outDir : String) (it : Intents) (env : Env) (s : St),
      detect_type src = some FType.video → it.videoChoice = true →
      strLower (pySuffix src) ≠ strLower (pySuffix (get_unique_file_path (fsPaths s.fs)
        (joinPath outDir (pyStem src ++ "." ++ it.videoExt)))) →
      (env src).openOk = false →
      (convert_single_file src outDir it env s).failed_files =
        s.failed_files ++ [pyName src]) := by
  refine ⟨?_, ?_, ?_, ?_, ?_⟩
  · intro src dest s h
    simp [copy_same_format, if_pos h]
  · intro env src dest s h1 h2
    simp [convert_video_to_audio, h1, h2, Res.state]
  · intro src outDir it env s hdet
    simp [convert_single_file, hdet]
  · intro k outDir ext env f rest s m s2 hne hr
    have hc : copy_same_format f (get_unique_file_path (fsPaths s.fs)
        (joinPath outDir (pyStem f ++ "." ++ ext))) s = (false, s) := by
      simp [copy_same_format, if_neg hne]
    simp only [processFilesCatch]
    rw [hc]
    simp only [hr]
  · intro src outDir it env s hdet hch hne h1
    simp only [convert_single_file, hdet, hch, if_true]
    simp only [copy_same_format, if_neg hne]
    simp [convert_video_to_video, h1]

/-- C10 witness: a copy records the destination's name (case differs from
the source), an unsupported skip records the source's name. -/
theorem C10_recorded_names_witness :
    (copy_same_format "a.MP4" "out/a.mp4" st0).2.correct_format_files = ["a.mp4"] ∧
    (convert_single_file "z.txt" "out" it0 envOk st0).skipped_files = ["z.txt"] := by
  have h1 := C10_recorded_names.1 "a.MP4" "out/a.mp4" st0 (by decide)
  have h2 := C10_recorded_names.2.2.1 "z.txt" "out" it0 envOk st0 (by decide)
  constructor
  · rw [h1]; decide
  · rw [h2]; decide

/-! Failure isolation. -/

/-- C1: failure isolation holds in the homogeneous-folder path (the failing
first video is recorded as Failed and the second is still attempted and
converted) but FAILS in the mixed-kind path: the same failing video makes
convert_folder raise, no Failed outcome is recorded, and the remaining
files of the batch (a second video and an image) are never attempted. -/
theorem C1_failure_isolation :
    ((convert_folder ["v1.mp4", "v2.mp4"] "out" it0 envFail1 st0).isOk = true ∧
     (convert_folder ["v1.mp4", "v2.mp4"] "out" it0 envFail1 st0).state.failed = 1 ∧
     (convert_folder ["v1.mp4", "v2.mp4"] "out" it0 envFail1 st0).state.failed_files
       = ["v1.mp4"] ∧
     (convert_folder ["v1.mp4", "v2.mp4"] "out" it0 envFail1 st0).state.converted = 1 ∧
     (convert_folder ["v1.mp4", "v2.mp4"] "out" it0 envFail1 st0).state.transcodeLog
       = ["v1.mp4", "v2.mp4"]) ∧
    ((convert_folder ["v1.mp4", "v2.mp4", "p.png"] "out" it0 envFail1 st0).isOk = false ∧
     (convert_folder ["v1.mp4", "v2.mp4", "p.png"] "out" it0 envFail1 st0).state.failed = 0 ∧
     (convert_folder ["v1.mp4", "v2.mp4", "p.png"] "out" it0 envFail1 st0).state.failed_files
       = [] ∧
     (convert_folder ["v1.mp4", "v2.mp4", "p.png"] "out" it0 envFail1 st0).state.transcodeLog
       = ["v1.mp4"] ∧
     (convert_folder ["v1.mp4", "v2.mp4", "p.png"] "out" it0 envFail1 st0).state.converted = 0 ∧
     (convert_folder ["v1.mp4", "v2.mp4", "p.png"] "out" it0 envFail1 st0).state.copied = 0 ∧
     (convert_folder ["v1.mp4", "v2.mp4", "p.png"] "out" it0 envFail1 st0).state.skipped = 0)
    := by decide

/-! The RunSummary accounting invariant. -/

/-- C2 counterexample: a run whose target exists but is neither a file nor
a directory (line 374-376 of main) completes and prints a summary whose
counters sum to 1 although zero files were examined, so the sum of the
four counters does not equal the number of files examined. -/
theorem C2_counterexample :
    (runMain Target.other "out" it0 envOk st0).isOk = true ∧
    sumCounters (runMain Target.other "out" it0 envOk st0).state = 1 ∧
    examinedCount Target.other = 0 ∧
    sumCounters (runMain Target.other "out" it0 envOk st0).state ≠
      sumCounters st0 + examinedCount Target.other := by decide

/-! Accounting deltas: each processed file adds exactly one to the sum of
the four counters, and only intent resolution touches the ghost counter. -/

theorem copy_true_delta {src dest : String} {s : St}
    (h : (copy_same_format src dest s).1 = true) :
    sumCounters (copy_same_format src dest s).2 = sumCounters s + 1 ∧
    (copy_same_format src dest s).2.intentResolutions = s.intentResolutions := by
  by_cases hc : strLower (pySuffix src) = strLower (pySuffix dest)
  · constructor <;> simp [copy_same_format, hc, sumCounters] <;> omega
  · simp [copy_same_format, hc] at h

theorem copy_false_delta {src dest : String} {s : St}
    (h : (copy_same_format src dest s).1 = false) :
    (copy_same_format src dest s).2 = s := by
  by_cases hc : strLower (pySuffix src) = strLower (pySuffix dest)
  · simp [copy_same_format, hc] at h
  · simp [copy_same_format, hc]

theorem runConvert_ok_delta {k : CKind} {env : Env} {src dest : String} {s s2 : St}
    (h : runConvert k env src dest s = Res.ok s2) :
    sumCounters s2 = sumCounters s + 1 ∧ s2.intentResolutions = s.intentResolutions := by
  cases k <;>
    simp only [runConvert, convert_video_to_video, convert_video_to_audio,
      convert_audio_to_audio, convert_image_to_image] at h <;>
    split_ifs at h <;> cases h <;>
    exact ⟨by simp [sumCounters]; omega, by simp⟩

theorem runConvert_err_delta {k : CKind} {env : Env} {src dest : String} {m : String}
    {s s2 : St} (h : runConvert k env src dest s = Res.err m s2) :
    sumCounters s2 = sumCounters s ∧ s2.intentResolutions = s.intentResolutions := by
  cases k <;>
    simp only [runConvert, convert_video_to_video, convert_video_to_audio,
      convert_audio_to_audio, convert_image_to_image] at h <;>
    split_ifs at h <;> cases h <;>
    exact ⟨by simp [sumCounters], by simp⟩

theorem processFilesCatch_delta (k : CKind) (outDir ext : String) (env : Env) :
    ∀ (files : List String) (s : St),
      sumCounters (processFilesCatch k outDir ext env files s) = sumCounters s + files.length ∧
      (processFilesCatch k outDir ext env files s).intentResolutions = s.intentResolutions := by
  intro files
  induction files with
  | nil => intro s; simp [processFilesCatch]
  | cons f rest ih =>
    intro s
    simp only [processFilesCatch]
    rcases hcp : copy_same_format f (get_unique_file_path (fsPaths s.fs)
      (joinPath outDir (pyStem f ++ "." ++ ext))) s with ⟨b, s1⟩
    cases b
    · have hs1 : s1 = s := by
        have := copy_false_delta (congrArg Prod.fst hcp)
        rwa [hcp] at this
      subst hs1
      try dsimp only
      cases hrc : runConvert k env f (get_unique_file_path (fsPaths s1.fs)
        (joinPath outDir (pyStem f ++ "." ++ ext))) s1 with
      | ok s2 =>
        try dsimp only
        obtain ⟨hd1, hd2⟩ := runConvert_ok_delta hrc
        obtain ⟨hi1, hi2⟩ := ih s2
        constructor
        · rw [hi1, hd1]; simp; omega
        · rw [hi2, hd2]
      | err m s2 =>
        try dsimp only
        obtain ⟨hd1, hd2⟩ := runConvert_err_delta hrc
        obtain ⟨hi1, hi2⟩ := ih { s2 with
          failed := s2.failed + 1,
          failed_files := s2.failed_files ++ [pyName f],
          prints := s2.prints ++ ["Failed: " ++ pyName f ++ " - " ++ m] }
        constructor
        · rw [hi1]; simp [sumCounters] at hd1 ⊢; omega
        · rw [hi2]; simpa using hd2
    · try dsimp only
      obtain ⟨hc1, hc2⟩ := copy_true_delta (congrArg Prod.fst hcp)
      rw [hcp] at hc1 hc2
      obtain ⟨hi1, hi2⟩ := ih s1
      constructor
      · rw [hi1]; simp at hc1 ⊢; rw [hc1]; omega
      · rw [hi2]; simpa using hc2

theorem processFilesNoCatch_ok_delta (k : CKind) (outDir ext : String) (env : Env) :
    ∀ (files : List String) (s : St),
      (processFilesNoCatch k outDir ext env files s).isOk = true →
      sumCounters (processFilesNoCatch k outDir ext env files s).state
        = sumCounters s + files.length ∧
      (processFilesNoCatch k outDir ext env files s).state.intentResolutions
        = s.intentResolutions := by
  intro files
  induction files with
  | nil => intro s _; simp [processFilesNoCatch, Res.state]
  | cons f rest ih =>
    intro s hok
    simp only [processFilesNoCatch] at hok ⊢
    rcases hcp : copy_same_format f (get_unique_file_path (fsPaths s.fs)
      (joinPath outDir (pyStem f ++ "." ++ ext))) s with ⟨b, s1⟩
    rw [hcp] at hok
    cases b
    · have hs1 : s1 = s := by
        have := copy_false_delta (congrArg Prod.fst hcp)
        rwa [hcp] at this
      subst hs1
      try dsimp only at hok ⊢
      cases hrc : runConvert k env f (get_unique_file_path (fsPaths s1.fs)
        (joinPath outDir (pyStem f ++ "." ++ ext))) s1 with
      | ok s2 =>
        rw [hrc] at hok
        try dsimp only at hok ⊢
        obtain ⟨hd1, hd2⟩ := runConvert_ok_delta hrc
        obtain ⟨hi1, hi2⟩ := ih s2 hok
        constructor
        · rw [hi1, hd1]; simp; omega
        · rw [hi2, hd2]
      | err m s2 =>
        rw [hrc] at hok
        simp [Res.isOk] at hok
    · try dsimp only at hok ⊢
      obtain ⟨hc1, hc2⟩ := copy_true_delta (congrArg Prod.fst hcp)
      rw [hcp] at hc1 hc2
      obtain ⟨hi1, hi2⟩ := ih s1 hok
      constructor
      · rw [hi1]; simp at hc1 ⊢; rw [hc1]; omega
      · rw [hi2]; simpa using hc2

theorem partition_files_delta :
    ∀ (files : List String) (s : St),
      sumCounters (partition_files files s).1 + (partition_files files s).2.1.length
        + (partition_files files s).2.2.1.length + (partition_files files s).2.2.2.length
        = sumCounters s + files.length ∧
      (partition_files files s).1.intentResolutions = s.intentResolutions := by
  intro files
  induction files with
  | nil => intro s; simp [partition_files]
  | cons f rest ih =>
    intro s
    cases hdet : detect_type f with
    | none =>
      simp only [partition_files, hdet]
      obtain ⟨h1, h2⟩ := ih { s with
        skipped := s.skipped + 1,
        skipped_files := s.skipped_files ++ [pyName f],
        prints := s.prints ++ ["Skipped (unsupported type): " ++ pyName f] }
      constructor
      · rw [h1]; simp [sumCounters]; omega
      · rw [h2]
    | some t =>
      obtain ⟨h1, h2⟩ := ih s
      rcases hp : partition_files rest s with ⟨s1, v, a, i⟩
      rw [hp] at h1 h2
      cases t <;> simp only [partition_files, hdet, hp] <;> constructor <;>
        simp at h1 h2 ⊢ <;> omega

theorem partition_files_groups :
    ∀ (files : List String) (s : St),
      (partition_files files s).2.1
        = files.filter (fun f => decide (detect_type f = some FType.video)) ∧
      (partition_files files s).2.2.1
        = files.filter (fun f => decide (detect_type f = some FType.audio)) ∧
      (partition_files files s).2.2.2
        = files.filter (fun f => decide (detect_type f = some FType.image)) := by
  intro files
  induction files with
  | nil => intro s; simp [partition_files]
  | cons f rest ih =>
    intro s
    cases hdet : detect_type f with
    | none =>
      simp only [partition_files, hdet]
      obtain ⟨h1, h2, h3⟩ := ih { s with
        skipped := s.skipped + 1,
        skipped_files := s.skipped_files ++ [pyName f],
        prints := s.prints ++ ["Skipped (unsupported type): " ++ pyName f] }
      simp only [List.filter_cons, hdet]
      simp [h1, h2, h3]
    | some t =>
      obtain ⟨h1, h2, h3⟩ := ih s
      rcases hp : partition_files rest s with ⟨s1, v, a, i⟩
      rw [hp] at h1 h2 h3
      simp only at h1 h2 h3
      cases t <;> simp only [partition_files, hdet, hp, List.filter_cons] <;>
        simp [h1, h2, h3, hdet]

theorem convert_all_same_type_delta (t : FType) (files : List String) (outDir : String)
    (it : Intents) (env : Env) (s : St) :
    sumCounters (convert_all_same_type t files outDir it env s) = sumCounters s + files.length ∧
    (convert_all_same_type t files outDir it env s).intentResolutions
      = s.intentResolutions + 1 := by
  cases t <;> simp only [convert_all_same_type]
  · by_cases hch : it.videoChoice = true
    · rw [if_pos hch]
      obtain ⟨h1, h2⟩ := processFilesCatch_delta CKind.vv outDir it.videoExt env files
        { s with intentResolutions := s.intentResolutions + 1 }
      exact ⟨by rw [h1]; simp [sumCounters], by rw [h2]⟩
    · rw [if_neg hch]
      obtain ⟨h1, h2⟩ := processFilesCatch_delta CKind.va outDir it.videoAudioExt env files
        { s with intentResolutions := s.intentResolutions + 1 }
      exact ⟨by rw [h1]; simp [sumCounters], by rw [h2]⟩
  · obtain ⟨h1, h2⟩ := processFilesCatch_delta CKind.aa outDir it.audioExt env files
      { s with intentResolutions := s.intentResolutions + 1 }
    exact ⟨by rw [h1]; simp [sumCounters], by rw [h2]⟩
  · obtain ⟨h1, h2⟩ := processFilesCatch_delta CKind.ii outDir it.imageExt env files
      { s with intentResolutions := s.intentResolutions + 1 }
    exact ⟨by rw [h1]; simp [sumCounters], by rw [h2]⟩

theorem processGroupNoCatch_ok_delta (t : FType) (files : List String) (outDir : String)
    (it : Intents) (env : Env) (s : St)
    (h : (processGroupNoCatch t files outDir it env s).isOk = true) :
    sumCounters (processGroupNoCatch t files outDir it env s).state
      = sumCounters s + files.length ∧
    (processGroupNoCatch t files outDir it env s).state.intentResolutions
      = s.intentResolutions + 1 := by
  cases t <;> simp only [processGroupNoCatch] at h ⊢
  · by_cases hch : it.videoChoice = true
    · rw [if_pos hch] at h ⊢
      obtain ⟨h1, h2⟩ := processFilesNoCatch_ok_delta CKind.vv outDir it.videoExt env files
        { s with intentResolutions := s.intentResolutions + 1 } h
      exact ⟨by rw [h1]; simp [sumCounters], by rw [h2]⟩
    · rw [if_neg hch] at h ⊢
      obtain ⟨h1, h2⟩ := processFilesNoCatch_ok_delta CKind.va outDir it.videoAudioExt env files
        { s with intentResolutions := s.intentResolutions + 1 } h
      exact ⟨by rw [h1]; simp [sumCounters], by rw [h2]⟩
  · obtain ⟨h1, h2⟩ := processFilesNoCatch_ok_delta CKind.aa outDir it.audioExt env files
      { s with intentResolutions := s.intentResolutions + 1 } h
    exact ⟨by rw [h1]; simp [sumCounters], by rw [h2]⟩
  · obtain ⟨h1, h2⟩ := processFilesNoCatch_ok_delta CKind.ii outDir it.imageExt env files
      { s with intentResolutions := s.intentResolutions + 1 } h
    exact ⟨by rw [h1]; simp [sumCounters], by rw [h2]⟩

/-- Number of non-empty kind groups among a folder's files (the spec's k
distinct non-empty kind groups). -/
def kindGroupsCount (files : List String) : Nat :=
  (if (files.filter fun f => decide (detect_type f = some FType.video)).isEmpty then 0 else 1)
  + (if (files.filter fun f => decide (detect_type f = some FType.audio)).isEmpty then 0 else 1)
  + (if (files.filter fun f => decide (detect_type f = some FType.image)).isEmpty then 0 else 1)

theorem convert_folder_ok_delta (files : List String) (outDir : String) (it : Intents)
    (env : Env) (s : St) (h : (convert_folder files outDir it env s).isOk = true) :
    sumCounters (convert_folder files outDir it env s).state = sumCounters s + files.length ∧
    (convert_folder files outDir it env s).state.intentResolutions
      = s.intentResolutions + kindGroupsCount files := by
  rcases hp : partition_files files s with ⟨s1, v, a, i⟩
  obtain ⟨hps, hpi⟩ := partition_files_delta files s
  rw [hp] at hps hpi
  simp only at hps hpi
  obtain ⟨hgv, hga, hgi⟩ := partition_files_groups files s
  rw [hp] at hgv hga hgi
  simp only at hgv hga hgi
  have hk : kindGroupsCount files
      = (if v.isEmpty = true then 0 else 1) + (if a.isEmpty = true then 0 else 1)
        + (if i.isEmpty = true then 0 else 1) := by
    simp only [kindGroupsCount, ← hgv, ← hga, ← hgi]
  have step : ∀ (t : FType) (g : List String) (sIn : St),
      (if g.isEmpty = true then Res.ok sIn else processGroupNoCatch t g outDir it env sIn).isOk
        = true →
      sumCounters (if g.isEmpty = true then Res.ok sIn
          else processGroupNoCatch t g outDir it env sIn).state = sumCounters sIn + g.length ∧
      (if g.isEmpty = true then Res.ok sIn
          else processGroupNoCatch t g outDir it env sIn).state.intentResolutions
        = sIn.intentResolutions + (if g.isEmpty = true then 0 else 1) := by
    intro t g sIn hok
    by_cases hge : g.isEmpty = true
    · rw [if_pos hge] at hok ⊢
      rw [if_pos hge]
      have : g = [] := by simpa using hge
      subst this
      simp [Res.state]
    · rw [if_neg hge] at hok ⊢
      rw [if_neg hge]
      exact processGroupNoCatch_ok_delta t g outDir it env sIn hok
  simp only [convert_folder, hp] at h ⊢
  by_cases hn : ((if v.isEmpty = true then 0 else 1) + (if a.isEmpty = true then 0 else 1)
      + (if i.isEmpty = true then 0 else 1)) = 1
  · rw [if_pos hn] at h ⊢
    by_cases hve : v.isEmpty = false
    · rw [if_pos hve] at h ⊢
      have hae : a.isEmpty = true := by
        by_contra hc
        have hc2 : a.isEmpty = false := by simpa using hc
        rw [hve, hc2] at hn
        simp at hn
        split_ifs at hn <;> omega
      have hie : i.isEmpty = true := by
        by_contra hc
        have hc2 : i.isEmpty = false := by simpa using hc
        rw [hve, hae, hc2] at hn
        simp at hn
      have ha0 : a = [] := by simpa using hae
      have hi0 : i = [] := by simpa using hie
      subst ha0 hi0
      obtain ⟨hc1, hc2⟩ := convert_all_same_type_delta FType.video v outDir it env s1
      simp only [Res.state]
      constructor
      · rw [hc1]
        simp at hps
        omega
      · rw [hc2, hk, hpi]
        simp [hve, hae, hie]
    · rw [if_neg hve] at h ⊢
      have hve2 : v.isEmpty = true := by simpa using hve
      have hv0 : v = [] := by simpa using hve2
      subst hv0
      by_cases hae : a.isEmpty = false
      · rw [if_pos hae] at h ⊢
        have hie : i.isEmpty = true := by
          by_contra hc
          have hc2 : i.isEmpty = false := by simpa using hc
          rw [hc2] at hn
          simp [hae] at hn
        have hi0 : i = [] := by simpa using hie
        subst hi0
        obtain ⟨hc1, hc2⟩ := convert_all_same_type_delta FType.audio a outDir it env s1
        simp only [Res.state]
        constructor
        · rw [hc1]
          simp at hps
          omega
        · rw [hc2, hk, hpi]
          simp [hve2, hae, hie]
      · rw [if_neg hae] at h ⊢
        have hae2 : a.isEmpty = true := by simpa using hae
        have ha0 : a = [] := by simpa using hae2
        subst ha0
        have hie : i.isEmpty = false := by
          by_cases hc : i.isEmpty = true
          · exfalso
            rw [hc] at hn
            simp at hn
          · simpa using hc
        obtain ⟨hc1, hc2⟩ := convert_all_same_type_delta FType.image i outDir it env s1
        simp only [Res.state]
        constructor
        · rw [hc1]
          simp at hps
          omega
        · rw [hc2, hk, hpi]
          simp [hve2, hae2, hie]
  · rw [if_neg hn] at h ⊢
    cases hr1 : (if v.isEmpty = true then Res.ok s1
        else processGroupNoCatch FType.video v outDir it env s1) with
    | err m s2 =>
      rw [hr1] at h
      simp [Res.isOk] at h
    | ok s2 =>
      rw [hr1] at h
      dsimp only at h ⊢
      obtain ⟨hs2, hi2⟩ := step FType.video v s1 (by rw [hr1]; rfl)
      rw [hr1] at hs2 hi2
      simp only [Res.state] at hs2 hi2
      cases hr2 : (if a.isEmpty = true then Res.ok s2
          else processGroupNoCatch FType.audio a outDir it env s2) with
      | err m s3 =>
        rw [hr2] at h
        simp [Res.isOk] at h
      | ok s3 =>
        rw [hr2] at h
        dsimp only at h ⊢
        obtain ⟨hs3, hi3⟩ := step FType.audio a s2 (by rw [hr2]; rfl)
        rw [hr2] at hs3 hi3
        simp only [Res.state] at hs3 hi3
        obtain ⟨hs4, hi4⟩ := step FType.image i s3 h
        constructor
        · rw [hs4, hs3, hs2, hk] at *
          omega
        · rw [hi4, hi3, hi2, hk, hpi]
          omega

theorem convert_single_file_sum (src outDir : String) (it : Intents) (env : Env) (s : St) :
    sumCounters (convert_single_file src outDir it env s) = sumCounters s + 1 := by
  have hdispatch : ∀ (k : CKind) (dst : String) (sb : St), sumCounters sb = sumCounters s →
      sumCounters (match (match copy_same_format src dst sb with
        | (true, s1) => Res.ok s1
        | (false, s1) => runConvert k env src dst s1) with
        | Res.ok s1 => s1
        | Res.err m s1 =>
          { s1 with
            failed := s1.failed + 1,
            failed_files := s1.failed_files ++ [pyName src],
            prints := s1.prints ++ ["Failed to convert " ++ pyName src ++ ": " ++ m] })
        = sumCounters s + 1 := by
    intro k dst sb hsb
    rcases hcp : copy_same_format src dst sb with ⟨b, s1⟩
    cases b
    · have hs1 : s1 = sb := by
        have := copy_false_delta (congrArg Prod.fst hcp)
        rwa [hcp] at this
      subst hs1
      try dsimp only
      cases hrc : runConvert k env src dst s1 with
      | ok s2 =>
        try dsimp only
        obtain ⟨hd1, _⟩ := runConvert_ok_delta hrc
        rw [hd1, hsb]
      | err m s2 =>
        try dsimp only
        obtain ⟨hd1, _⟩ := runConvert_err_delta hrc
        simp [sumCounters] at hd1 hsb ⊢
        omega
    · try dsimp only
      obtain ⟨hc1, _⟩ := copy_true_delta (congrArg Prod.fst hcp)
      rw [hcp] at hc1
      simp at hc1
      rw [hc1, hsb]
  cases hdet : detect_type src with
  | none =>
    simp [convert_single_file, hdet, sumCounters]
    omega
  | some t =>
    cases t with
    | video =>
      by_cases hch : it.videoChoice = true
      · simp only [convert_single_file, hdet, if_pos hch]
        exact hdispatch CKind.vv _ _ (by simp [sumCounters])
      · simp only [convert_single_file, hdet, if_neg hch]
        exact hdispatch CKind.va _ _ (by simp [sumCounters])
    | audio =>
      simp only [convert_single_file, hdet]
      exact hdispatch CKind.aa _ _ (by simp [sumCounters])
    | image =>
      simp only [convert_single_file, hdet]
      exact hdispatch CKind.ii _ _ (by simp [sumCounters])

/-- C2 (amended): for every run on an existing file, the counter sum grows
by exactly the one file examined, and for every run on a directory that
completes without an uncaught transcode error, the counter sum grows by
exactly the number of files examined (unsupported files counting as
Skipped); so at the end of such runs converted + copied + skipped + failed
equals the number of files examined.  The claim as literally stated is
refuted by C2_counterexample: the target-is-neither branch of main
increments failed with zero files examined. -/
theorem C2_sum_invariant :
    (∀ (p outDir : String) (it : Intents) (env : Env) (s : St),
      (runMain (Target.file p) outDir it env s).isOk = true ∧
      sumCounters (runMain (Target.file p) outDir it env s).state
        = sumCounters s + examinedCount (Target.file p)) ∧
    (∀ (files : List String) (outDir : String) (it : Intents) (env : Env) (s : St),
      (runMain (Target.dir files) outDir it env s).isOk = true →
      sumCounters (runMain (Target.dir files) outDir it env s).state
        = sumCounters s + examinedCount (Target.dir files)) := by
  constructor
  · intro p outDir it env s
    refine ⟨rfl, ?_⟩
    simp only [runMain, Res.state, examinedCount]
    exact convert_single_file_sum p outDir it env s
  · intro files outDir it env s h
    simp only [runMain, examinedCount] at h ⊢
    exact (convert_folder_ok_delta files outDir it env s h).1

/-- C2 witness: a completed mixed run over one video, one image and one
unsupported file ends with its counters summing to the three files
examined. -/
theorem C2_sum_invariant_witness :
    sumCounters (runMain (Target.dir ["a.mp4", "b.png", "c.txt"]) "out" it0 envOk st0).state
      = sumCounters st0 + examinedCount (Target.dir ["a.mp4", "b.png", "c.txt"]) :=
  C2_sum_invariant.2 ["a.mp4", "b.png", "c.txt"] "out" it0 envOk st0 (by decide)

/-- C7: for every folder run that completes, the conversion intent is
resolved exactly once per non-empty kind group — the resolution counter
grows by exactly the number of non-empty kind groups, in both the
homogeneous path and the mixed-kind path, never once per file and never
once globally for a mixed folder. -/
theorem C7_intent_once_per_group (files : List String) (outDir : String) (it : Intents)
    (env : Env) (s : St) (h : (convert_folder files outDir it env s).isOk = true) :
    (convert_folder files outDir it env s).state.intentResolutions
      = s.intentResolutions + kindGroupsCount files :=
  (convert_folder_ok_delta files outDir it env s h).2

/-- C7 witness: the spec's example folder of 3 videos, 2 images and 1
unsupported file resolves the intent exactly twice. -/
theorem C7_intent_once_per_group_witness :
    (convert_folder ["a.mp4", "b.mp4", "c.mp4", "p.png", "q.png", "z.txt"] "out" it0 envOk
      st0).state.intentResolutions = st0.intentResolutions + 2 := by
  have h := C7_intent_once_per_group ["a.mp4", "b.mp4", "c.mp4", "p.png", "q.png", "z.txt"]
    "out" it0 envOk st0 (by decide)
  rw [h]
  decide

/-! Report rendering. -/

theorem str_ne_of_mismatch (p q : String) (i : Nat) (c d : Char)
    (hp : p.data[i]? = some c) (hq : q.data[i]? = some d) (hcd : c ≠ d) : p ≠ q := by
  intro h
  rw [h] at hp
  rw [hp] at hq
  exact hcd (Option.some.inj hq)

theorem append_get_left (p x : String) (i : Nat) (c : Char) (hp : p.data[i]? = some c) :
    (p ++ x).data[i]? = some c := by
  have hi : i < p.data.length := by
    by_contra hle
    push_neg at hle
    rw [List.getElem?_eq_none hle] at hp
    exact Option.noConfusion hp
  rw [String.data_append, List.getElem?_append, if_pos hi]
  exact hp

theorem bullet_ne_lit (n L : String) (i : Nat) (c d : Char)
    (h1 : ("    • ").data[i]? = some c) (h2 : L.data[i]? = some d) (hcd : c ≠ d) :
    bulletLine n ≠ L :=
  str_ne_of_mismatch _ _ i c d (append_get_left _ _ i c h1) h2 hcd

theorem bullet_ne_app (n q y : String) (i : Nat) (c d : Char)
    (h1 : ("    • ").data[i]? = some c) (h2 : q.data[i]? = some d) (hcd : c ≠ d) :
    bulletLine n ≠ q ++ y :=
  str_ne_of_mismatch _ _ i c d (append_get_left _ _ i c h1) (append_get_left _ _ i d h2) hcd

theorem bulletLine_inj {a b : String} (h : bulletLine a = bulletLine b) : a = b := by
  have hd := congrArg String.data h
  simp only [bulletLine, String.data_append] at hd
  exact String.ext (List.append_cancel_left hd)

theorem mem_ite_list {α : Type} {c : Prop} [Decidable c] {x : α} {l : List α}
    (h : x ∈ if c then l else []) : c ∧ x ∈ l := by
  by_cases hc : c
  · rw [if_pos hc] at h
    exact ⟨hc, h⟩
  · rw [if_neg hc] at h
    simp at h

/-- The first list occurs as a contiguous block, in order, inside the
second. -/
def contiguousIn (l₁ l₂ : List String) : Prop := ∃ u v, u ++ l₁ ++ v = l₂

/-- C9: the rendered report contains all four category count lines; for
each of Copied, Skipped and Failed with a non-zero count it lists the
recorded filenames of that category, in recording order, as a contiguous
block of bullet lines; and every bullet line comes from one of those three
recorded lists — the Converted category is only counted, never itemized by
filename (the state keeps no list of converted names at all). -/
theorem C9_report (s : St) :
    ("Converted: " ++ natStr s.converted) ∈ print_summary s ∧
    ("Copied (already correct format): " ++ natStr s.copied) ∈ print_summary s ∧
    ("Skipped: " ++ natStr s.skipped) ∈ print_summary s ∧
    ("Failed: " ++ natStr s.failed) ∈ print_summary s ∧
    (0 < s.copied → contiguousIn (s.correct_format_files.map bulletLine) (print_summary s)) ∧
    (0 < s.skipped → contiguousIn (s.skipped_files.map bulletLine) (print_summary s)) ∧
    (0 < s.failed → contiguousIn (s.failed_files.map bulletLine) (print_summary s)) ∧
    (∀ name, bulletLine name ∈ print_summary s →
      name ∈ s.correct_format_files ∨ name ∈ s.skipped_files ∨ name ∈ s.failed_files) := by
  refine ⟨by simp [print_summary], by simp [print_summary], by simp [print_summary],
    by simp [print_summary], ?_, ?_, ?_, ?_⟩
  · intro h
    refine ⟨["\n==== SUMMARY ====", "Converted: " ++ natStr s.converted,
      "Copied (already correct format): " ++ natStr s.copied,
      "  - Files already correct format:"],
      ["Skipped: " ++ natStr s.skipped]
        ++ (if 0 < s.skipped then "  - Skipped files:" :: s.skipped_files.map bulletLine else [])
        ++ ["Failed: " ++ natStr s.failed]
        ++ (if 0 < s.failed then "  - Failed files:" :: s.failed_files.map bulletLine else [])
        ++ ["================="], ?_⟩
    simp [print_summary, if_pos h]
  · intro h
    refine ⟨["\n==== SUMMARY ====", "Converted: " ++ natStr s.converted,
      "Copied (already correct format): " ++ natStr s.copied]
      ++ (if 0 < s.copied then "  - Files already correct format:"
            :: s.correct_format_files.map bulletLine else [])
      ++ ["Skipped: " ++ natStr s.skipped, "  - Skipped files:"],
      ["Failed: " ++ natStr s.failed]
        ++ (if 0 < s.failed then "  - Failed files:" :: s.failed_files.map bulletLine else [])
        ++ ["================="], ?_⟩
    simp [print_summary, if_pos h]
  · intro h
    refine ⟨["\n==== SUMMARY ====", "Converted: " ++ natStr s.converted,
      "Copied (already correct format): " ++ natStr s.copied]
      ++ (if 0 < s.copied then "  - Files already correct format:"
            :: s.correct_format_files.map bulletLine else [])
      ++ ["Skipped: " ++ natStr s.skipped]
      ++ (if 0 < s.skipped then "  - Skipped files:" :: s.skipped_files.map bulletLine else [])
      ++ ["Failed: " ++ natStr s.failed, "  - Failed files:"],
      ["================="], ?_⟩
    simp [print_summary, if_pos h]
  · intro name h
    simp only [print_summary, List.mem_append, List.mem_singleton, List.mem_cons,
      List.not_mem_nil, or_false] at h
    rcases h with ((((((((h | h) | h) | h) | h) | h) | h) | h) | h)
    · exact absurd h (bullet_ne_lit name _ 0 ' ' '\n' (by decide) (by decide) (by decide))
    · exact absurd h (bullet_ne_app name _ _ 0 ' ' 'C' (by decide) (by decide) (by decide))
    · exact absurd h (bullet_ne_app name _ _ 0 ' ' 'C' (by decide) (by decide) (by decide))
    · obtain ⟨_, h⟩ := mem_ite_list h
      rw [List.mem_cons] at h
      rcases h with h | h
      · exact absurd h (bullet_ne_lit name _ 2 ' ' '-' (by decide) (by decide) (by decide))
      · obtain ⟨x, hx, he⟩ := List.mem_map.mp h
        exact Or.inl (bulletLine_inj he ▸ hx)
    · exact absurd h (bullet_ne_app name _ _ 0 ' ' 'S' (by decide) (by decide) (by decide))
    · obtain ⟨_, h⟩ := mem_ite_list h
      rw [List.mem_cons] at h
      rcases h with h | h
      · exact absurd h (bullet_ne_lit name _ 2 ' ' '-' (by decide) (by decide) (by decide))
      · obtain ⟨x, hx, he⟩ := List.mem_map.mp h
        exact Or.inr (Or.inl (bulletLine_inj he ▸ hx))
    · exact absurd h (bullet_ne_app name _ _ 0 ' ' 'F' (by decide) (by decide) (by decide))
    · obtain ⟨_, h⟩ := mem_ite_list h
      rw [List.mem_cons] at h
      rcases h with h | h
      · exact absurd h (bullet_ne_lit name _ 2 ' ' '-' (by decide) (by decide) (by decide))
      · obtain ⟨x, hx, he⟩ := List.mem_map.mp h
        exact Or.inr (Or.inr (bulletLine_inj he ▸ hx))
    · exact absurd h (bullet_ne_lit name _ 0 ' ' '=' (by decide) (by decide) (by decide))

/-- C9 witness: a concrete state with one name in each of the three
itemized categories renders a report whose skipped block appears in order
and whose bullet for the copied name traces back to the copied list. -/
theorem C9_report_witness :
    contiguousIn ([bulletLine "s1.txt", bulletLine "s2.txt"])
      (print_summary ⟨4, 1, 2, 1, ["c.png"], ["s1.txt", "s2.txt"], ["f.mp4"],
        [], [], [], [], [], 0⟩) ∧
    ("c.png" ∈ (["c.png"] : List String) ∨ "c.png" ∈ (["s1.txt", "s2.txt"] : List String) ∨
      "c.png" ∈ (["f.mp4"] : List String)) := by
  have h := C9_report ⟨4, 1, 2, 1, ["c.png"], ["s1.txt", "s2.txt"], ["f.mp4"],
    [], [], [], [], [], 0⟩
  constructor
  · have h2 := h.2.2.2.2.2.1 (by decide)
    simpa using h2
  · exact h.2.2.2.2.2.2.2 "c.png" (by decide)
